import Mathlib

/-!
Verification of the WTT signaling broker, peer-session glue and bridge code.

The development shallowly embeds the Go sources:
  * `src/server/server.go` — the `peerManager` actor (registry, registration,
    routing), `isAuthorized`, and the connection handler / read pump;
  * `src/client/client.go` — the data-channel creation performed by the client;
  * `src/common/bridge.go` — the UDP packet bridge (`BridgePacket`);
  * `src/host/host.go` — the reconnection backoff of the host outer loop.

Pure data is translated directly; the actor loop of `peerManager.run` becomes a
step function from a request to a new state plus a list of externally visible
effects; goroutine pumps become folds over the list of I/O events they consume.
-/

namespace WTT

/-! ## Signaling envelopes (`signal` package)

`signal.Message` is the envelope `{Type, Payload, TargetID, SenderID}`.  The
`Payload` field is `interface{}` in Go and is never inspected by the broker; it
is modelled as an opaque string (the decoded JSON value). -/

/-- Signaling envelope, mirroring `signal.Message`. -/
structure Message where
  type     : String
  payload  : String
  targetID : String
  senderID : String
deriving DecidableEq, Repr

/-- Constant `signal.MessageTypeRegisterHost`. -/
def MessageTypeRegisterHost : String := "register-host"

/-- Constant `signal.MessageTypeOffer`. -/
def MessageTypeOffer : String := "offer"

/-- Constant `signal.MessageTypeError`. -/
def MessageTypeError : String := "error"

/-! ## The broker registry (`peerManager`, src/server/server.go)

`peers map[string]*safeConnection` is modelled as an association list keyed by
host identity.  A `safeConnection` is reduced to the identity of its underlying
websocket connection plus its buffered outbound queue (`send chan []byte, 256`).
The queue holds envelope values: the broker enqueues `json.Marshal(req.msg)`,
i.e. exactly the routed envelope, so at the value level the queue element is the
`Message` itself. -/

/-- Mirror of `safeConnection`: the underlying connection (named by a number)
and the buffered outbound send queue, oldest first. -/
structure SafeConnection where
  connId : Nat
  send   : List Message
deriving DecidableEq, Repr

/-- Capacity of the `send` channel (`make(chan []byte, 256)`). -/
def sendQueueCapacity : Nat := 256

/-- The broker registry: `peers map[string]*safeConnection`. -/
structure PeerManager where
  peers : List (String × SafeConnection)
deriving DecidableEq, Repr

/-- Go map lookup `pm.peers[id]` on the association-list model
(first entry with the key wins). -/
def lookupPeer : List (String × SafeConnection) → String → Option SafeConnection
  | [], _ => none
  | (k, v) :: rest, id => if k = id then some v else lookupPeer rest id

/-- Go map deletion `delete(pm.peers, id)`. -/
def removePeer (ps : List (String × SafeConnection)) (id : String) :
    List (String × SafeConnection) :=
  ps.filter (fun p => p.1 != id)

/-- Appending an envelope to the send queue of the entry keyed `id`
(the `target.send <- b` case of routing); entries with other keys are kept
unchanged. -/
def enqueuePeer : List (String × SafeConnection) → String → Message →
    List (String × SafeConnection)
  | [], _, _ => []
  | (k, v) :: rest, id, m =>
    (k, if k = id then { v with send := v.send ++ [m] } else v) ::
      enqueuePeer rest id m

/-- The three request kinds served by `peerManager.run`:
`addHostRequest`, `removeHostRequest` and `routeMessageRequest`.
`sender` is the requesting connection (`req.sender`). -/
inductive Request where
  | addHost (id : String) (connId : Nat)
  | removeHost (id : String)
  | routeMessage (msg : Message) (sender : Nat)
deriving DecidableEq, Repr

/-- Externally visible effects of one iteration of `peerManager.run`:
responses on the `resp` channels, a direct `WriteJSON` on the requesting
connection (best-effort; its error is discarded by the Go code), and the
drop of an envelope when a send queue is full. -/
inductive Effect where
  | respondAddOk
  | respondAddErr (e : String)
  | respondRouteOk
  | respondRouteErr (e : String)
  | sendDirect (connId : Nat) (msg : Message)
  | dropQueueFull (targetId : String)
deriving DecidableEq, Repr

/-- One iteration of the `select` in `peerManager.run`
(src/server/server.go lines 92-141), as a function from the current registry
and the received request to the new registry and the emitted effects.
Error strings keep the Go wording with the quote characters dropped. -/
def pmStep (pm : PeerManager) (req : Request) : PeerManager × List Effect :=
  match req with
  | .addHost id connId =>
    match lookupPeer pm.peers id with
    | some _ =>
      (pm, [.respondAddErr ("host with ID " ++ id ++ " already registered")])
    | none =>
      ({ peers := pm.peers ++ [(id, { connId := connId, send := [] })] },
       [.respondAddOk])
  | .removeHost id =>
    match lookupPeer pm.peers id with
    | some _ => ({ peers := removePeer pm.peers id }, [])
    | none => (pm, [])
  | .routeMessage msg sender =>
    if msg.targetID = "" then
      (pm, [.respondRouteErr ("message from " ++ msg.senderID ++ " has no target ID")])
    else
      match lookupPeer pm.peers msg.targetID with
      | none =>
        let errText := "target host " ++ msg.targetID ++ " not found"
        (pm,
         [.sendDirect sender
            { type := MessageTypeError, payload := errText,
              targetID := msg.senderID, senderID := "" },
          .respondRouteErr errText])
      | some target =>
        if target.send.length < sendQueueCapacity then
          ({ peers := enqueuePeer pm.peers msg.targetID msg }, [.respondRouteOk])
        else
          (pm, [.dropQueueFull msg.targetID, .respondRouteOk])

/-- The registry `newPeerManager` starts from: the empty map. -/
def pmInit : PeerManager := { peers := [] }

/-- The registry reached after serving a sequence of requests from the initial
empty registry: `run` handles requests one at a time, in order. -/
def pmRun (reqs : List Request) : PeerManager :=
  reqs.foldl (fun s r => (pmStep s r).1) pmInit

/-- Outcome of `peerManager.handleConnection` for a first envelope of type
`register-host`: either the new connection is closed (empty id or duplicate
registration) or the new connection is promoted to a host connection. -/
inductive ConnOutcome where
  | rejectedClosed (connId : Nat)
  | registered (id : String) (connId : Nat)
deriving DecidableEq, Repr

/-- The register path of `peerManager.handleConnection`
(src/server/server.go lines 156-173): an empty `SenderID` closes the new
connection; otherwise an `addHost` request is issued and an error response
closes the new connection, while success enters the read pump. -/
def handleRegisterFirstFrame (pm : PeerManager) (msg : Message) (connId : Nat) :
    PeerManager × ConnOutcome :=
  if msg.senderID = "" then (pm, .rejectedClosed connId)
  else
    let r := pmStep pm (.addHost msg.senderID connId)
    if r.2 = [Effect.respondAddOk] then (r.1, .registered msg.senderID connId)
    else (r.1, .rejectedClosed connId)

/-! ## Read limits (`handleConnection` / `readPump`)

`handleConnection` reads the first envelope under a 10 s deadline with the
connection still at its default (unlimited) read limit; `readPump` then calls
`conn.SetReadLimit(maxMessageSize)` before its loop, so every later envelope
larger than the limit makes the read fail and the loop break, closing the
connection.  A connection is modelled by the list of framed envelopes the peer
sends, each with its wire size. -/

/-- Limit installed by `readPump`: `maxMessageSize = 10240`. -/
def maxMessageSize : Nat := 10240

/-- One framed envelope as received from the wire: its size in bytes and the
decoded message. -/
structure Frame where
  size : Nat
  msg  : Message
deriving DecidableEq, Repr

/-- The loop of `peerManager.readPump` (src/server/server.go lines 183-213)
after `SetReadLimit(maxMessageSize)`: returns the envelopes dispatched to the
router, in order, and whether the connection was closed because a frame
exceeded the read limit. -/
def readPumpDispatch : List Frame → List Message × Bool
  | [] => ([], false)
  | f :: rest =>
    if maxMessageSize < f.size then ([], true)
    else
      let r := readPumpDispatch rest
      (f.msg :: r.1, r.2)

/-- `peerManager.handleConnection` (src/server/server.go lines 143-181) at the
level of dispatched envelopes: the first frame is read and dispatched with no
read limit installed, then the remaining frames go through `readPump`. -/
def handleConnDispatch : List Frame → List Message × Bool
  | [] => ([], false)
  | first :: rest =>
    let r := readPumpDispatch rest
    (first.msg :: r.1, r.2)

/-! ## Authentication (`isAuthorized`, src/server/server.go lines 215-234) -/

/-- The token loop at the end of `isAuthorized`:
`for _, validToken := range validTokens { if token == validToken ... }`. -/
def tokenMatches (token : String) : List String → Bool
  | [] => false
  | v :: rest => if token = v then true else tokenMatches token rest

/-- Mirror of `isAuthorized(r, validTokens)`.  The `Authorization` header is an
optional string; `r.Header.Get` yields the empty string when it is absent. -/
def isAuthorized (authHeader? : Option String) (validTokens : List String) : Bool :=
  if validTokens.length = 0 then true
  else
    let authHeader := authHeader?.getD ""
    if authHeader = "" then false
    else
      match authHeader.splitOn " " with
      | [scheme, token] =>
        if scheme = "Bearer" then tokenMatches token validTokens else false
      | _ => false

/-- The bearer token carried by a well-formed `Authorization` header value:
exactly two space-separated parts whose first is `Bearer`.  `none` means the
header is malformed in the sense of `isAuthorized`. -/
def bearerToken (authHeader : String) : Option String :=
  match authHeader.splitOn " " with
  | [scheme, token] => if scheme = "Bearer" then some token else none
  | _ => none

/-- Result of the HTTP handler in `server.Run` for one incoming connection. -/
inductive HandlerResult where
  | unauthorized
  | upgraded
deriving DecidableEq, Repr

/-- The admission decision of the handler registered in `server.Run`
(src/server/server.go lines 256-268): an unauthorized request is answered with
status 401 and the handler returns before the websocket upgrade, so no envelope
is ever read from it; otherwise the connection is upgraded and handed to
`handleConnection`. -/
def serveConnection (authHeader? : Option String) (validTokens : List String) :
    HandlerResult :=
  if isAuthorized authHeader? validTokens then .upgraded else .unauthorized

/-! ## Client data-channel creation (src/client/client.go) -/

/-- Tunnel protocol (`common.Protocol`, values `"tcp"` and `"udp"`). -/
inductive Protocol where
  | tcp
  | udp
deriving DecidableEq, Repr

/-- The subset of `webrtc.DataChannelInit` the spec talks about.  A `none`
option field means the transport default (reliable, ordered). -/
structure DataChannelInit where
  ordered        : Option Bool
  maxRetransmits : Option Nat
deriving DecidableEq, Repr

/-- Data-channel creation in `negotiate` (src/client/client.go line 97):
`pc.CreateDataChannel("wtt", nil)`.  The label is the constant string `wtt`
and the options argument is nil whatever tunnel protocol was configured. -/
def negotiate_createDataChannel (_protocol : Protocol) :
    String × Option DataChannelInit :=
  ("wtt", none)

/-- Data-channel creation in the HTTP-signaling client variant
(src/client/client.go line 242, through `offerer.B_CreateDataChannel =
rtc.CreateDataChannel`): the caller passes a fresh UUID as the label, the label
falls back to `data` when empty, and the options argument is nil. -/
def rtc_CreateDataChannel (label : String) : String × Option DataChannelInit :=
  (if label.length = 0 then "data" else label, none)

/-! ## The UDP packet bridge (`BridgePacket`, src/common/bridge.go)

The local-to-remote goroutine repeatedly calls `pconn.ReadFrom(buf)`; each
successful read yields a payload and a source address.  The pump state is the
`returnAddr` variable (`net.Addr`, modelled as an opaque string). -/

/-- One successful `ReadFrom` on the local packet socket. -/
structure Packet where
  data : List UInt8
  addr : String
deriving DecidableEq, Repr

/-- One iteration of the local-to-remote loop of `BridgePacket`
(src/common/bridge.go lines 63-89 and 212-234): set `returnAddr` when still
nil, and send the payload on the data channel only when `n > 0`. -/
def bridgePacketStep (returnAddr : Option String) (p : Packet) :
    Option String × Option (List UInt8) :=
  let ra := match returnAddr with
    | none => some p.addr
    | some a => some a
  (ra, if 0 < p.data.length then some p.data else none)

/-- The local-to-remote pump run over the successful reads it consumes, in
order: final `returnAddr` and the data-channel messages sent. -/
def bridgePacketPump (returnAddr : Option String) :
    List Packet → Option String × List (List UInt8)
  | [] => (returnAddr, [])
  | p :: rest =>
    let s := bridgePacketStep returnAddr p
    let r := bridgePacketPump s.1 rest
    (r.1, s.2.toList ++ r.2)

/-- The `dc.OnMessage` handler of the first `BridgePacket` variant
(src/common/bridge.go lines 92-104): with no return address the message is
dropped, otherwise the payload is written to the recorded address. -/
def bridgePacketOnMessageV1 (returnAddr : Option String) (data : List UInt8) :
    Option (List UInt8 × String) :=
  match returnAddr with
  | none => none
  | some a => some (data, a)

/-- The `dc.OnMessage` handler of the second `BridgePacket` variant
(src/common/bridge.go lines 237-249): empty payloads and messages arriving
before the return address is known are dropped. -/
def bridgePacketOnMessage (returnAddr : Option String) (data : List UInt8) :
    Option (List UInt8 × String) :=
  match returnAddr with
  | none => none
  | some a => if data.isEmpty then none else some (data, a)

/-! ## Host reconnection backoff (src/host/host.go lines 506-543)

`backoff := time.Duration(math.Pow(2, float64(attempt))) * time.Second` with a
cap of 30 s.  `time.Duration` is a signed 64-bit count of nanoseconds and Go
multiplication wraps on overflow, so the product is taken modulo 2^64 and read
back as a signed value.  `math.Pow(2, n)` is exact and fits in an int64 for
every attempt below 63, which covers all inputs used here. -/

/-- Interpretation of an integer as a wrapped signed 64-bit value. -/
def int64Wrap (x : Int) : Int := (x + 2 ^ 63) % 2 ^ 64 - 2 ^ 63

/-- Nanoseconds in `time.Second`. -/
def nanosPerSecond : Int := 1000000000

/-- The backoff computed by `host.Run` after session attempt `attempt` fails,
in nanoseconds: `Duration(2^attempt) * Second`, then capped at 30 s. -/
def hostBackoffNanos (attempt : Nat) : Int :=
  let backoff := int64Wrap ((2 ^ attempt : Int) * nanosPerSecond)
  if backoff > 30 * nanosPerSecond then 30 * nanosPerSecond else backoff

/-- Modelled from the spec: the wait the spec prescribes before re-dial
number `attempt + 1`, namely `min(2^attempt, 30)` seconds, in nanoseconds. -/
def specBackoffNanos (attempt : Nat) : Int :=
  (min ((2 : Int) ^ attempt) 30) * nanosPerSecond

/-! ## Helper lemmas -/

theorem lookupPeer_eq_none_iff (ps : List (String × SafeConnection)) (id : String) :
    lookupPeer ps id = none ↔ id ∉ ps.map Prod.fst := by
  induction ps with
  | nil => simp [lookupPeer]
  | cons p rest ih =>
    rcases p with ⟨k, v⟩
    by_cases h : k = id
    · subst h; simp [lookupPeer]
    · have h2 : ¬id = k := fun hh => h hh.symm
      simp [lookupPeer, h, h2, ih]

theorem lookupPeer_enqueuePeer (ps : List (String × SafeConnection)) (id : String)
    (m : Message) :
    lookupPeer (enqueuePeer ps id m) id
      = (lookupPeer ps id).map (fun sc => { sc with send := sc.send ++ [m] }) := by
  induction ps with
  | nil => rfl
  | cons p rest ih =>
    rcases p with ⟨k, v⟩
    by_cases h : k = id
    · subst h; simp [enqueuePeer, lookupPeer]
    · simpa [enqueuePeer, lookupPeer, h] using ih

theorem keys_enqueuePeer (ps : List (String × SafeConnection)) (id : String)
    (m : Message) :
    (enqueuePeer ps id m).map Prod.fst = ps.map Prod.fst := by
  induction ps with
  | nil => rfl
  | cons p rest ih =>
    rcases p with ⟨k, v⟩
    by_cases h : k = id <;> simp [enqueuePeer, h, ih]

theorem nodup_keys_removePeer (ps : List (String × SafeConnection)) (id : String)
    (h : (ps.map Prod.fst).Nodup) : ((removePeer ps id).map Prod.fst).Nodup :=
  ((List.filter_sublist ps).map Prod.fst).nodup h

theorem pmStep_preserves_nodup (pm : PeerManager) (req : Request)
    (h : (pm.peers.map Prod.fst).Nodup) :
    ((pmStep pm req).1.peers.map Prod.fst).Nodup := by
  cases req with
  | addHost id connId =>
    cases hl : lookupPeer pm.peers id with
    | some sc => simpa [pmStep, hl] using h
    | none =>
      have hid : id ∉ pm.peers.map Prod.fst := (lookupPeer_eq_none_iff _ _).1 hl
      simp [pmStep, hl, List.nodup_append, h, hid]
  | removeHost id =>
    cases hl : lookupPeer pm.peers id with
    | some sc => simpa [pmStep, hl] using nodup_keys_removePeer pm.peers id h
    | none => simpa [pmStep, hl] using h
  | routeMessage msg sender =>
    by_cases ht : msg.targetID = ""
    · simpa [pmStep, ht] using h
    · cases hl : lookupPeer pm.peers msg.targetID with
      | none => simpa [pmStep, ht, hl] using h
      | some target =>
        by_cases hq : target.send.length < sendQueueCapacity
        · simpa [pmStep, ht, hl, hq, keys_enqueuePeer] using h
        · simpa [pmStep, ht, hl, hq] using h

theorem tokenMatches_iff_mem (t : String) (l : List String) :
    tokenMatches t l = true ↔ t ∈ l := by
  induction l with
  | nil => simp [tokenMatches]
  | cons v rest ih => by_cases h : t = v <;> simp [tokenMatches, h, ih]

theorem isAuthorized_false_of (s : String) (validTokens : List String)
    (hlen : validTokens ≠ [])
    (h : bearerToken s = none ∨ ∀ t, bearerToken s = some t → t ∉ validTokens) :
    isAuthorized (some s) validTokens = false := by
  have hl : ¬validTokens.length = 0 := fun hh => hlen (List.length_eq_zero.1 hh)
  by_cases hs : s = ""
  · simp [isAuthorized, hl, hs]
  · rcases hsp : s.splitOn " " with _ | ⟨a, _ | ⟨b, _ | ⟨c, tl⟩⟩⟩
    · simp [isAuthorized, hl, hs, hsp]
    · simp [isAuthorized, hl, hs, hsp]
    · by_cases hb : a = "Bearer"
      · rcases h with h | h
        · rw [bearerToken, hsp] at h
          simp [hb] at h
        · have hmem : b ∉ validTokens := h b (by rw [bearerToken, hsp]; simp [hb])
          have hfalse : tokenMatches b validTokens = false :=
            Bool.eq_false_iff.mpr (fun hh => hmem ((tokenMatches_iff_mem _ _).1 hh))
          simp [isAuthorized, hl, hs, hsp, hb, hfalse]
      · simp [isAuthorized, hl, hs, hsp, hb]
    · simp [isAuthorized, hl, hs, hsp]

theorem pmRun_nodup (reqs : List Request) :
    ((pmRun reqs).peers.map Prod.fst).Nodup := by
  suffices h : ∀ pm : PeerManager, (pm.peers.map Prod.fst).Nodup →
      (((reqs.foldl (fun s r => (pmStep s r).1) pm)).peers.map Prod.fst).Nodup by
    exact h pmInit (by simp [pmInit])
  induction reqs with
  | nil => exact fun pm h => h
  | cons r rest ih =>
    intro pm h
    exact ih _ (pmStep_preserves_nodup pm r h)

theorem bridgePacketPump_fst_some (a : String) (reads : List Packet) :
    (bridgePacketPump (some a) reads).1 = some a := by
  induction reads with
  | nil => rfl
  | cons p rest ih => simpa [bridgePacketPump, bridgePacketStep] using ih

theorem bridgePacketPump_snd (st : Option String) (reads : List Packet) :
    (bridgePacketPump st reads).2
      = (reads.map Packet.data).filter (fun d => !d.isEmpty) := by
  induction reads generalizing st with
  | nil => rfl
  | cons p rest ih =>
    simp only [bridgePacketPump, bridgePacketStep, List.map_cons, List.filter_cons]
    rcases p with ⟨data, addr⟩
    cases data with
    | nil => simpa using ih _
    | cons b bs => simpa using ih _

/-! ## Claims -/

/-- C1: for every envelope routed by the broker to a registered target, the
envelope delivered to the target (the one appended to the target's send queue)
is exactly the envelope received from the sender: `type`, `sender_id`,
`target_id` and `payload` are preserved, the broker only forwards. -/
theorem route_forwards_unchanged (pm : PeerManager) (msg : Message) (sender : Nat)
    (sc : SafeConnection) (hne : msg.targetID ≠ "")
    (hlook : lookupPeer pm.peers msg.targetID = some sc)
    (hq : sc.send.length < sendQueueCapacity) :
    lookupPeer (pmStep pm (.routeMessage msg sender)).1.peers msg.targetID
      = some { sc with send := sc.send ++ [msg] } ∧
    (pmStep pm (.routeMessage msg sender)).2 = [Effect.respondRouteOk] := by
  refine ⟨?_, by simp [pmStep, hne, hlook, hq]⟩
  simp [pmStep, hne, hlook, hq, lookupPeer_enqueuePeer]

/-- Concrete instance of the forwarding theorem: one registered host `h1`,
an offer from `c1` routed to it. -/
theorem route_forwards_unchanged_witness :
    lookupPeer (pmStep { peers := [("h1", { connId := 7, send := [] })] }
        (Request.routeMessage
          { type := "offer", payload := "sdp-blob", targetID := "h1", senderID := "c1" }
          3)).1.peers "h1"
      = some { connId := 7,
               send := [{ type := "offer", payload := "sdp-blob",
                          targetID := "h1", senderID := "c1" }] } :=
  (route_forwards_unchanged
      { peers := [("h1", { connId := 7, send := [] })] }
      { type := "offer", payload := "sdp-blob", targetID := "h1", senderID := "c1" }
      3 { connId := 7, send := [] } (by decide) rfl (by decide)).1

/-- C2: in every registry state the broker can reach from its initial empty
registry, there is at most one entry per identity. -/
theorem registry_at_most_one_entry_per_id (reqs : List Request) (id : String) :
    ((pmRun reqs).peers.map Prod.fst).count id ≤ 1 :=
  List.nodup_iff_count_le_one.1 (pmRun_nodup reqs) id

/-- C3: a `register` for an identity that is already present is rejected, the
new connection is closed, and the registry — in particular the incumbent's
entry — is left unchanged. -/
theorem register_duplicate_rejected (pm : PeerManager) (msg : Message)
    (connId : Nat) (sc : SafeConnection)
    (hdup : lookupPeer pm.peers msg.senderID = some sc) :
    handleRegisterFirstFrame pm msg connId = (pm, .rejectedClosed connId) ∧
    lookupPeer (handleRegisterFirstFrame pm msg connId).1.peers msg.senderID
      = some sc := by
  by_cases hs : msg.senderID = ""
  · rw [hs] at hdup
    constructor
    · simp [handleRegisterFirstFrame, hs]
    · simp [handleRegisterFirstFrame, hs, hdup]
  · constructor
    · simp [handleRegisterFirstFrame, hs, pmStep, hdup]
    · simp [handleRegisterFirstFrame, hs, pmStep, hdup]

/-- Concrete instance of the duplicate-registration theorem: host `h1` is
registered on connection 0 and a second registration for `h1` arrives on
connection 1. -/
theorem register_duplicate_rejected_witness :
    handleRegisterFirstFrame { peers := [("h1", { connId := 0, send := [] })] }
        { type := "register-host", payload := "", targetID := "", senderID := "h1" } 1
      = ({ peers := [("h1", { connId := 0, send := [] })] },
         ConnOutcome.rejectedClosed 1) :=
  (register_duplicate_rejected
      { peers := [("h1", { connId := 0, send := [] })] }
      { type := "register-host", payload := "", targetID := "", senderID := "h1" }
      1 { connId := 0, send := [] } rfl).1

/-- C4: an envelope whose non-empty `target_id` is absent from the registry
makes the broker write an `error` envelope addressed to the sender directly on
the requesting connection (best-effort), and the registry is unchanged. -/
theorem route_unknown_target_error (pm : PeerManager) (msg : Message) (sender : Nat)
    (hne : msg.targetID ≠ "")
    (habs : lookupPeer pm.peers msg.targetID = none) :
    (pmStep pm (.routeMessage msg sender)).1 = pm ∧
    ∃ e, (pmStep pm (.routeMessage msg sender)).2 =
      [Effect.sendDirect sender
         { type := MessageTypeError, payload := e,
           targetID := msg.senderID, senderID := "" },
       Effect.respondRouteErr e] := by
  refine ⟨by simp [pmStep, hne, habs], ?_⟩
  exact ⟨"target host " ++ msg.targetID ++ " not found", by simp [pmStep, hne, habs]⟩

/-- Concrete instance of the unknown-target theorem: an offer from `c1` to the
unregistered identity `ghost` on an empty registry. -/
theorem route_unknown_target_error_witness :
    (pmStep pmInit
        (Request.routeMessage
          { type := "offer", payload := "sdp-blob", targetID := "ghost", senderID := "c1" }
          5)).1 = pmInit :=
  (route_unknown_target_error pmInit
      { type := "offer", payload := "sdp-blob", targetID := "ghost", senderID := "c1" }
      5 (by decide) rfl).1

/-- C9: the 10 KiB read limit is installed only after the first envelope has
been read and dispatched: the first envelope of a connection is dispatched
whatever its size, while in the subsequent read pump the first frame exceeding
10240 bytes closes the connection after dispatching exactly the frames that
preceded it. -/
theorem first_frame_not_size_limited :
    (∀ (f : Frame) (rest : List Frame), maxMessageSize < f.size →
        (handleConnDispatch (f :: rest)).1.head? = some f.msg) ∧
    (∀ (pre : List Frame) (f : Frame) (post : List Frame),
        (∀ g ∈ pre, g.size ≤ maxMessageSize) → maxMessageSize < f.size →
        readPumpDispatch (pre ++ f :: post) = (pre.map Frame.msg, true)) := by
  constructor
  · intro f rest _
    rfl
  · intro pre f post hpre hf
    induction pre with
    | nil => simp [readPumpDispatch, hf]
    | cons g rest ih =>
      have hg : ¬maxMessageSize < g.size := not_lt.2 (hpre g (by simp))
      have ih2 := ih (fun x hx => hpre x (List.mem_cons_of_mem g hx))
      simp [readPumpDispatch, hg, ih2]

/-- Concrete instance of the read-limit theorem: an oversized first frame is
dispatched, and an oversized second frame closes the connection after the
first. -/
theorem first_frame_not_size_limited_witness :
    (handleConnDispatch
        [{ size := 20000,
           msg := { type := "offer", payload := "big", targetID := "h1", senderID := "c1" } }]).1.head?
      = some { type := "offer", payload := "big", targetID := "h1", senderID := "c1" } ∧
    readPumpDispatch
        [{ size := 100,
           msg := { type := "candidate", payload := "c", targetID := "h1", senderID := "c1" } },
         { size := 20000,
           msg := { type := "offer", payload := "big", targetID := "h1", senderID := "c1" } }]
      = ([{ type := "candidate", payload := "c", targetID := "h1", senderID := "c1" }], true) :=
  ⟨first_frame_not_size_limited.1
      { size := 20000,
        msg := { type := "offer", payload := "big", targetID := "h1", senderID := "c1" } }
      [] (by decide),
   first_frame_not_size_limited.2
      [{ size := 100,
         msg := { type := "candidate", payload := "c", targetID := "h1", senderID := "c1" } }]
      { size := 20000,
        msg := { type := "offer", payload := "big", targetID := "h1", senderID := "c1" } }
      [] (by decide) (by decide)⟩

/-- C7: with an empty token allow-list every connection is admitted without
credential checks; with a non-empty allow-list a connection whose
`Authorization` header is missing, malformed (not exactly `Bearer` plus one
token), or whose bearer token matches no allow-listed value is answered with
an unauthorized status, before any envelope is read. -/
theorem serve_auth_policy (authHeader? : Option String) (validTokens : List String) :
    (validTokens = [] → serveConnection authHeader? validTokens = .upgraded) ∧
    (validTokens ≠ [] →
      (authHeader? = none ∨ bearerToken (authHeader?.getD "") = none ∨
        (∀ t, bearerToken (authHeader?.getD "") = some t → t ∉ validTokens)) →
      serveConnection authHeader? validTokens = .unauthorized) := by
  constructor
  · intro h
    subst h
    simp [serveConnection, isAuthorized]
  · intro hne hrej
    have hl : ¬validTokens.length = 0 := fun hh => hne (List.length_eq_zero.1 hh)
    cases authHeader? with
    | none => simp [serveConnection, isAuthorized, hl]
    | some s =>
      have hrej2 : bearerToken s = none ∨ ∀ t, bearerToken s = some t → t ∉ validTokens := by
        rcases hrej with h | h | h
        · exact absurd h (by simp)
        · exact Or.inl (by simpa using h)
        · exact Or.inr (by simpa using h)
      simp [serveConnection, isAuthorized_false_of s validTokens hne hrej2]

/-- Concrete instances of the admission theorem: empty allow-list admits a
tokenless connection; a one-token allow-list rejects a missing header. -/
theorem serve_auth_policy_witness :
    serveConnection none [] = HandlerResult.upgraded ∧
    serveConnection none ["s3cret"] = HandlerResult.unauthorized :=
  ⟨(serve_auth_policy none []).1 rfl,
   (serve_auth_policy none ["s3cret"]).2 (by decide) (Or.inl rfl)⟩

/-- C5 counterexample: at the cited data-channel creation site the client
passes nil options, so a UDP tunnel's channel is not configured with
`ordered = false` and `max_retransmits = 0`. -/
theorem dataChannel_udp_counterexample :
    ¬((negotiate_createDataChannel Protocol.udp).2
        = some { ordered := some false, maxRetransmits := some 0 }) := by
  decide

/-- C5 amended: the client creates its data channel with nil options for both
tunnel protocols, leaving ordering and reliability at the transport defaults;
the label is the fixed string `wtt` in `negotiate`, while the HTTP-signaling
variant passes a caller-supplied (fresh UUID) label through unchanged and the
options are nil there as well. -/
theorem clientDataChannel_defaults (p : Protocol) (label : String) :
    (negotiate_createDataChannel p).1 = "wtt" ∧
    (negotiate_createDataChannel p).2 = none ∧
    (rtc_CreateDataChannel label).2 = none :=
  ⟨rfl, rfl, rfl⟩

/-- C6: for every UDP bridge, the return address is set from the source
address of the first successful read on the local packet socket and never
changes afterwards for the bridge's lifetime; every data-channel message
arriving before the return address is set is dropped without writing to the
local socket (in both `BridgePacket` variants). -/
theorem udp_return_addr_fixed :
    (∀ (a : String) (reads : List Packet),
        (bridgePacketPump (some a) reads).1 = some a) ∧
    (∀ (p : Packet) (reads : List Packet),
        (bridgePacketPump none (p :: reads)).1 = some p.addr) ∧
    (∀ data : List UInt8, bridgePacketOnMessage none data = none) ∧
    (∀ data : List UInt8, bridgePacketOnMessageV1 none data = none) := by
  refine ⟨bridgePacketPump_fst_some, ?_, fun _ => rfl, fun _ => rfl⟩
  intro p reads
  simpa [bridgePacketPump, bridgePacketStep] using
    bridgePacketPump_fst_some p.addr reads

/-- C10: in the UDP bridge's local-to-remote pump, a successful zero-length
read still sets the return address when it is not yet set, but its empty
payload is not forwarded to the data channel; the messages sent on the data
channel are exactly the non-empty read payloads, in order. -/
theorem udp_zero_length_read :
    (∀ (a : String) (reads : List Packet),
        bridgePacketPump none ({ data := [], addr := a } :: reads)
          = bridgePacketPump (some a) reads) ∧
    (∀ (st : Option String) (reads : List Packet),
        (bridgePacketPump st reads).2
          = (reads.map Packet.data).filter (fun d => !d.isEmpty)) := by
  refine ⟨?_, bridgePacketPump_snd⟩
  intro a reads
  simp [bridgePacketPump, bridgePacketStep]

set_option maxRecDepth 4000 in
/-- C8 (divergence witness): the host backoff agrees with the spec value
`min(2^n, 30)` seconds for attempts 1 through 33, but at attempt 34 the
computation `Duration(2^34) * Second` overflows the signed 64-bit nanosecond
count, yielding a negative duration instead of the 30 s cap, so the host
re-dials immediately. -/
theorem hostBackoff_overflow :
    (∀ n < 34, 1 ≤ n → hostBackoffNanos n = specBackoffNanos n) ∧
    hostBackoffNanos 34 < 0 ∧
    specBackoffNanos 34 = 30 * nanosPerSecond := by
  refine ⟨by decide, by decide, by decide⟩

/-- Witness for the backoff theorem at concrete attempts 2 and 34. -/
theorem hostBackoff_overflow_witness :
    hostBackoffNanos 2 = specBackoffNanos 2 ∧ hostBackoffNanos 34 < 0 :=
  ⟨hostBackoff_overflow.1 2 (by decide) (by decide), hostBackoff_overflow.2.1⟩

end WTT
